import Mathlib

/-!
Verification development for the browser tracing integration
(`src/packages/tracing-internal/src/browser/browserTracingIntegration.ts`).

The development embeds, as executable Lean definitions:
* the interaction correlation cache maintained by `handleEntries` inside
  `registerInpInteractionListener` (a JS object keyed by numeric
  `interactionId`; JS objects enumerate integer-like keys in ascending
  numeric order, so the mapping is embedded as an association list kept
  strictly sorted by key);
* the pageload/navigation span supersession logic of `afterAllSetup`;
* the options merge of `browserTracingIntegration`;
* the heartbeat algorithm and the click interaction listener.
-/

namespace BrowserTracing

/-- `entryType` of the performance entries routed to `handleEntries`: the
handler is registered for the `event` and `first-input` entry types. -/
inductive EntryType where
  | event
  | firstInput
deriving DecidableEq, Repr

/-- The value stored in `interactionIdToRouteNameMapping` (source lines
625-633).  `parentContext`, `user`, `activeTransaction` and `replayId` are
opaque payloads here, embedded as strings / optional strings. -/
structure InteractionRecord where
  routeName : String
  duration : Int
  parentContext : String
  user : Option String
  activeTransaction : Option String
  replayId : Option String
  startTime : Int
deriving DecidableEq, Repr

/-- One `PerformanceEventTiming` entry as read by `handleEntries`:
`entry.interactionId` may be `undefined` (embedded as `none`). -/
structure EntryModel where
  interactionId : Option Nat
  duration : Int
  startTime : Int
  entryType : EntryType
deriving DecidableEq, Repr

/-- The ambient data `handleEntries` reads per batch: `latestRoute.name`,
`latestRoute.context` (an object, truthy iff defined), and the scope data
(user, active transaction, replay id) captured into new records. -/
structure ObserveEnv where
  routeName : Option String
  routeContext : Option String
  user : Option String
  activeTransaction : Option String
  replayId : Option String
deriving DecidableEq, Repr

/-- The cache: association list from `interactionId` to record, kept in
ascending key order like the integer-like keys of the JS object. -/
abbrev Mapping := List (Nat × InteractionRecord)

/-- `MAX_INTERACTIONS` (source line 552). -/
def MAX_INTERACTIONS : Nat := 10

/-- `Object.keys(interactionIdToRouteNameMapping)` (ascending numeric
order for a JS object with integer-like keys). -/
def keysOf (m : Mapping) : List Nat := m.map Prod.fst

/-- Property access `interactionIdToRouteNameMapping[id]`. -/
def lookupKey (m : Mapping) (k : Nat) : Option InteractionRecord :=
  match m with
  | [] => none
  | p :: rest => if p.1 = k then some p.2 else lookupKey rest k

/-- `interactionIdToRouteNameMapping[k].duration`; the `0` default is never
reached when `k` is a key of `m`. -/
def durOf (m : Mapping) (k : Nat) : Int :=
  match lookupKey m k with
  | some r => r.duration
  | none => 0

/-- One step of `keys.reduce((a, b) => m[a].duration < m[b].duration ? a : b)`
(source lines 587-591). -/
def pickMin (m : Mapping) (a b : Nat) : Nat :=
  if durOf m a < durOf m b then a else b

/-- `minInteractionId` (source lines 585-592): `undefined` when the mapping
is empty, otherwise the `reduce` above over the key list. -/
def minKey (m : Mapping) : Option Nat :=
  match keysOf m with
  | [] => none
  | k :: ks => some (ks.foldl (pickMin m) k)

/-- The `first-input` duplicate test (source lines 596-600): some existing
record has the same `duration` and `startTime` as the entry. -/
def hasDurationStartTimeMatch (m : Mapping) (d t : Int) : Bool :=
  m.any fun p => p.2.duration == d && p.2.startTime == t

/-- The admission condition for a new interaction (source lines 612-616):
`keys.length < MAX_INTERACTIONS || minInteractionId === undefined ||
duration > m[minInteractionId].duration`. -/
def admitNew (m : Mapping) (d : Int) : Bool :=
  decide ((keysOf m).length < MAX_INTERACTIONS) || (minKey m).isNone ||
    (match minKey m with
     | some k => decide (d > durOf m k)
     | none => false)

/-- The eviction guard (source line 621): `minInteractionId &&
Object.keys(m).length >= MAX_INTERACTIONS` (a present key is a nonempty
string, hence truthy). -/
def shouldEvict (m : Mapping) : Bool :=
  (minKey m).isSome && decide ((keysOf m).length ≥ MAX_INTERACTIONS)

/-- `delete interactionIdToRouteNameMapping[k]` (source line 623). -/
def eraseKey (k : Nat) : Mapping → Mapping
  | [] => []
  | p :: rest => if p.1 = k then rest else p :: eraseKey k rest

/-- `existingInteraction.duration = Math.max(existingInteraction.duration,
duration)` (source line 611). -/
def updateDuration (k : Nat) (d : Int) (m : Mapping) : Mapping :=
  m.map fun p => if p.1 = k then (p.1, { p.2 with duration := max p.2.duration d }) else p

/-- `interactionIdToRouteNameMapping[interactionId] = { routeName, duration,
parentContext, user, activeTransaction, replayId, startTime }` (source lines
625-633); insertion keeps the JS ascending integer-key enumeration order. -/
def insertSorted (k : Nat) (v : InteractionRecord) : Mapping → Mapping
  | [] => [(k, v)]
  | p :: rest =>
    if k < p.1 then (k, v) :: p :: rest
    else if k = p.1 then (k, v) :: rest
    else p :: insertSorted k v rest

/-- The record built for a new interaction (source lines 625-633). -/
def mkRecord (env : ObserveEnv) (routeName parentContext : String) (e : EntryModel) :
    InteractionRecord :=
  { routeName := routeName
    duration := e.duration
    parentContext := parentContext
    user := env.user
    activeTransaction := env.activeTransaction
    replayId := env.replayId
    startTime := e.startTime }

/-- Processing of a single performance entry by `handleEntries` (source
lines 575-636), in source order: return on `undefined` id; the
`first-input` duplicate test; the sentinel test `!interactionId`; the
duration merge for an existing record; otherwise the admission test, the
route availability test (`routeName && parentContext`, where a string is
truthy iff nonempty), the capacity eviction and the insertion. -/
def observe (env : ObserveEnv) (m : Mapping) (e : EntryModel) : Mapping :=
  match e.interactionId with
  | none => m
  | some interactionId =>
    if e.entryType = EntryType.firstInput ∧
        hasDurationStartTimeMatch m e.duration e.startTime = true then m
    else if interactionId = 0 then m
    else
      match lookupKey m interactionId with
      | some _ => updateDuration interactionId e.duration m
      | none =>
        if admitNew m e.duration = true then
          match env.routeName, env.routeContext with
          | some routeName, some parentContext =>
            if routeName = "" then m
            else
              let m1 :=
                if shouldEvict m = true then
                  match minKey m with
                  | some k => eraseKey k m
                  | none => m
                else m
              insertSorted interactionId (mkRecord env routeName parentContext e) m1
          | _, _ => m
        else m

/-- A whole stream of entries (each paired with the ambient data at its
processing time), folded through `observe` from the empty mapping. -/
def runObserve (steps : List (ObserveEnv × EntryModel)) : Mapping :=
  steps.foldl (fun m s => observe s.1 m s.2) []

/-- Well-formedness of the embedded JS object: keys strictly ascending
(hence distinct), and the capacity bound. -/
def cacheWF (m : Mapping) : Prop :=
  (keysOf m).Pairwise (· < ·) ∧ m.length ≤ MAX_INTERACTIONS

end BrowserTracing

namespace BrowserTracing

theorem keysOf_nil : keysOf [] = [] := rfl

theorem keysOf_cons (p : Nat × InteractionRecord) (m : Mapping) :
    keysOf (p :: m) = p.1 :: keysOf m := rfl

theorem keysOf_updateDuration (k : Nat) (d : Int) (m : Mapping) :
    keysOf (updateDuration k d m) = keysOf m := by
  induction m with
  | nil => rfl
  | cons p rest ih =>
    simp only [updateDuration, List.map_cons] at ih ⊢
    split <;> simp_all [keysOf]

theorem length_updateDuration (k : Nat) (d : Int) (m : Mapping) :
    (updateDuration k d m).length = m.length := by
  simp [updateDuration]

theorem lookupKey_updateDuration_self (k : Nat) (d : Int) (m : Mapping) :
    lookupKey (updateDuration k d m) k =
      (lookupKey m k).map (fun r => { r with duration := max r.duration d }) := by
  induction m with
  | nil => rfl
  | cons p rest ih =>
    simp only [updateDuration, List.map_cons, lookupKey] at ih ⊢
    by_cases hpk : p.1 = k <;> simp [hpk, lookupKey, ih, updateDuration]

theorem lookupKey_updateDuration_ne (k k' : Nat) (d : Int) (m : Mapping) (h : k' ≠ k) :
    lookupKey (updateDuration k d m) k' = lookupKey m k' := by
  induction m with
  | nil => rfl
  | cons p rest ih =>
    simp only [updateDuration, List.map_cons, lookupKey] at ih ⊢
    by_cases hpk : p.1 = k
    · subst hpk
      simp [Ne.symm h, lookupKey, ih, updateDuration]
    · simp only [if_neg hpk]
      by_cases hpk' : p.1 = k' <;> simp [hpk', lookupKey, ih, updateDuration]

theorem eraseKey_sublist (k : Nat) (m : Mapping) : (eraseKey k m).Sublist m := by
  induction m with
  | nil => simp [eraseKey]
  | cons p rest ih =>
    simp only [eraseKey]
    split
    · exact List.sublist_cons_self p rest
    · exact ih.cons₂ p

theorem pairwise_keysOf_eraseKey (k : Nat) (m : Mapping)
    (h : (keysOf m).Pairwise (· < ·)) : (keysOf (eraseKey k m)).Pairwise (· < ·) :=
  List.Pairwise.sublist ((eraseKey_sublist k m).map Prod.fst) h

theorem length_eraseKey_of_mem (k : Nat) (m : Mapping) (h : k ∈ keysOf m) :
    (eraseKey k m).length + 1 = m.length := by
  induction m with
  | nil => simp [keysOf] at h
  | cons p rest ih =>
    simp only [eraseKey]
    split
    · simp
    · rename_i hne
      simp only [keysOf, List.map_cons, List.mem_cons] at h
      rcases h with h | h
      · exact absurd h.symm hne
      · simpa using ih h

theorem length_insertSorted_le (k : Nat) (v : InteractionRecord) (m : Mapping) :
    (insertSorted k v m).length ≤ m.length + 1 := by
  induction m with
  | nil => simp [insertSorted]
  | cons p rest ih =>
    simp only [insertSorted]
    split
    · simp
    · split
      · simp
      · simpa using Nat.succ_le_succ ih

theorem mem_keysOf_insertSorted {a k : Nat} {v : InteractionRecord} {m : Mapping}
    (h : a ∈ keysOf (insertSorted k v m)) : a = k ∨ a ∈ keysOf m := by
  induction m with
  | nil => simpa [insertSorted, keysOf] using h
  | cons p rest ih =>
    simp only [insertSorted] at h
    split at h
    · simpa [keysOf] using h
    · split at h
      · simp only [keysOf, List.map_cons, List.mem_cons] at h ⊢
        tauto
      · simp only [keysOf, List.map_cons, List.mem_cons] at h ⊢
        rcases h with h | h
        · tauto
        · rcases ih h with h' | h' <;> tauto

theorem pairwise_keysOf_insertSorted (k : Nat) (v : InteractionRecord) (m : Mapping)
    (h : (keysOf m).Pairwise (· < ·)) :
    (keysOf (insertSorted k v m)).Pairwise (· < ·) := by
  induction m with
  | nil => simp [insertSorted, keysOf]
  | cons p rest ih =>
    simp only [keysOf, List.map_cons, List.pairwise_cons] at h
    obtain ⟨hp, hrest⟩ := h
    simp only [insertSorted]
    split
    · rename_i hlt
      simp only [keysOf, List.map_cons, List.pairwise_cons]
      refine ⟨?_, hp, hrest⟩
      intro b hb
      rcases List.mem_cons.mp hb with rfl | hb
      · exact hlt
      · exact lt_trans hlt (hp b hb)
    · split
      · rename_i hne heq
        subst heq
        simp only [keysOf, List.map_cons, List.pairwise_cons]
        exact ⟨hp, hrest⟩
      · rename_i hlt hne
        simp only [keysOf, List.map_cons, List.pairwise_cons]
        refine ⟨?_, ih hrest⟩
        intro b hb
        rcases mem_keysOf_insertSorted hb with rfl | hb
        · omega
        · exact hp b hb

theorem foldl_pickMin_spec (m : Mapping) (ks : List Nat) (k : Nat) :
    (ks.foldl (pickMin m) k = k ∨ ks.foldl (pickMin m) k ∈ ks) ∧
    durOf m (ks.foldl (pickMin m) k) ≤ durOf m k ∧
    ∀ b ∈ ks, durOf m (ks.foldl (pickMin m) k) ≤ durOf m b := by
  induction ks generalizing k with
  | nil => simp
  | cons b rest ih =>
    simp only [List.foldl_cons]
    obtain ⟨hmem, hk, hall⟩ := ih (pickMin m k b)
    have hpk : durOf m (pickMin m k b) ≤ durOf m k := by
      unfold pickMin
      split
      · exact le_refl _
      · rename_i hnl
        exact le_of_not_lt hnl
    have hpb : durOf m (pickMin m k b) ≤ durOf m b := by
      unfold pickMin
      split
      · rename_i hl
        exact le_of_lt hl
      · exact le_refl _
    refine ⟨?_, le_trans hk hpk, ?_⟩
    · rcases hmem with h | h
      · rw [h]
        unfold pickMin
        split
        · exact Or.inl rfl
        · exact Or.inr (List.mem_cons_self b rest)
      · exact Or.inr (List.mem_cons_of_mem b h)
    · intro c hc
      rcases List.mem_cons.mp hc with rfl | hc
      · exact le_trans hk hpb
      · exact hall c hc

theorem minKey_mem {m : Mapping} {j : Nat} (h : minKey m = some j) : j ∈ keysOf m := by
  unfold minKey at h
  rcases hk : keysOf m with _ | ⟨k, ks⟩
  · rw [hk] at h
    simp at h
  · rw [hk] at h
    simp only [Option.some.injEq] at h
    subst h
    rcases (foldl_pickMin_spec m ks k).1 with h | h
    · rw [h]
      exact List.mem_cons_self k ks
    · exact List.mem_cons_of_mem k h

theorem minKey_min {m : Mapping} {j : Nat} (h : minKey m = some j) :
    ∀ b ∈ keysOf m, durOf m j ≤ durOf m b := by
  unfold minKey at h
  rcases hk : keysOf m with _ | ⟨k, ks⟩
  · rw [hk] at h
    simp at h
  · rw [hk] at h
    simp only [Option.some.injEq] at h
    subst h
    intro b hb
    rcases List.mem_cons.mp hb with rfl | hb
    · exact (foldl_pickMin_spec m ks b).2.1
    · exact (foldl_pickMin_spec m ks k).2.2 b hb

theorem minKey_eq_none_iff (m : Mapping) : minKey m = none ↔ m = [] := by
  unfold minKey keysOf
  rcases m with _ | ⟨p, rest⟩ <;> simp

end BrowserTracing

namespace BrowserTracing

theorem length_keysOf (m : Mapping) : (keysOf m).length = m.length := by
  simp [keysOf]

theorem observe_wf (env : ObserveEnv) (m : Mapping) (e : EntryModel) (h : cacheWF m) :
    cacheWF (observe env m e) := by
  obtain ⟨hpw, hlen⟩ := h
  obtain ⟨oid, d, t, ty⟩ := e
  have hM : MAX_INTERACTIONS = 10 := rfl
  rcases oid with _ | id
  · exact ⟨hpw, hlen⟩
  · simp only [observe]
    split
    · exact ⟨hpw, hlen⟩
    · split
      · exact ⟨hpw, hlen⟩
      · rcases hlk : lookupKey m id with _ | r
        · simp only []
          split
          · rcases henv : env.routeName with _ | rn <;> rcases hctx : env.routeContext with _ | ctx
            · exact ⟨hpw, hlen⟩
            · exact ⟨hpw, hlen⟩
            · exact ⟨hpw, hlen⟩
            · simp only []
              split
              · exact ⟨hpw, hlen⟩
              · by_cases hev : shouldEvict m = true
                · have hksome : (minKey m).isSome = true ∧
                      decide ((keysOf m).length ≥ MAX_INTERACTIONS) = true := by
                    unfold shouldEvict at hev
                    exact Bool.and_eq_true_iff.mp hev
                  obtain ⟨j, hj⟩ := Option.isSome_iff_exists.mp hksome.1
                  have hjmem := minKey_mem hj
                  have hlen' := length_eraseKey_of_mem j m hjmem
                  simp only [hev, if_true, hj]
                  constructor
                  · exact pairwise_keysOf_insertSorted _ _ _ (pairwise_keysOf_eraseKey j m hpw)
                  · refine le_trans (length_insertSorted_le _ _ _) ?_
                    omega
                · have hsmall : m.length < MAX_INTERACTIONS ∨ m = [] := by
                    unfold shouldEvict at hev
                    by_cases hnone : minKey m = none
                    · exact Or.inr ((minKey_eq_none_iff m).mp hnone)
                    · left
                      have hsome : (minKey m).isSome = true :=
                        Option.isSome_iff_ne_none.mpr hnone
                      rw [hsome] at hev
                      simp only [Bool.true_and, decide_eq_true_eq] at hev
                      rw [length_keysOf] at hev
                      omega
                  rw [if_neg hev]
                  constructor
                  · exact pairwise_keysOf_insertSorted _ _ _ hpw
                  · refine le_trans (length_insertSorted_le _ _ _) ?_
                    rcases hsmall with hsm | rfl
                    · omega
                    · simp [MAX_INTERACTIONS]
          · exact ⟨hpw, hlen⟩
        · simp only []
          constructor
          · rw [keysOf_updateDuration]
            exact hpw
          · rw [length_updateDuration]
            exact hlen

end BrowserTracing

namespace BrowserTracing

theorem runObserve_wf (steps : List (ObserveEnv × EntryModel)) : cacheWF (runObserve steps) := by
  unfold runObserve
  have main : ∀ m, cacheWF m → cacheWF (steps.foldl (fun m s => observe s.1 m s.2) m) := by
    induction steps with
    | nil => exact fun m h => h
    | cons s rest ih => exact fun m h => ih _ (observe_wf s.1 m s.2 h)
  exact main [] ⟨List.Pairwise.nil, by simp [MAX_INTERACTIONS]⟩

/-- Claim C1: for every sequence of observe calls (handleEntries processing
performance entries) starting from the empty mapping, the interaction
correlation cache holds at most MAX_INTERACTIONS = 10 records after each
call.  Since the sequence is universally quantified, every intermediate
cache is itself the result of such a sequence. -/
theorem C1_cache_capacity (steps : List (ObserveEnv × EntryModel)) :
    (runObserve steps).length ≤ MAX_INTERACTIONS :=
  (runObserve_wf steps).2

/-- Shared concrete sample environment: route "/home" established. -/
def envSample : ObserveEnv :=
  { routeName := some ("/home")
    routeContext := some ("ctx")
    user := none
    activeTransaction := none
    replayId := none }

/-- Shared concrete sample environment with no route established. -/
def envNoRoute : ObserveEnv :=
  { routeName := none
    routeContext := none
    user := none
    activeTransaction := none
    replayId := none }

/-- A concrete entry of type `event`. -/
def eventEntry (id : Nat) (d t : Int) : EntryModel :=
  { interactionId := some id, duration := d, startTime := t, entryType := EntryType.event }

/-- A concrete entry of type `first-input`. -/
def firstInputEntry (id : Nat) (d t : Int) : EntryModel :=
  { interactionId := some id, duration := d, startTime := t, entryType := EntryType.firstInput }

/-- Claim C5: an entry carrying the sentinel interaction id 0 is a complete
no-op on the cache, whatever its duration, entry type, and the cache
contents: the `!interactionId` test (source lines 605-608) fires before any
mutation, and the `first-input` duplicate test before it also only drops. -/
theorem C5_sentinel_rejection (env : ObserveEnv) (m : Mapping) (e : EntryModel)
    (h : e.interactionId = some 0) : observe env m e = m := by
  obtain ⟨oid, d, t, ty⟩ := e
  have h' : oid = some 0 := h
  subst h'
  simp only [observe]
  split
  · rfl
  · simp

theorem C5_sentinel_rejection_witness :
    observe envSample [] (eventEntry 0 100 0) = [] :=
  C5_sentinel_rejection envSample [] (eventEntry 0 100 0) rfl

/-- Claim C6: a new (not previously stored) interaction entry arriving while
the latest route name or route context is missing is a complete no-op:
the route availability test (source line 620) guards both the eviction and
the insertion, so nothing is inserted and nothing is evicted. -/
theorem C6_missing_route_atomic_drop (env : ObserveEnv) (m : Mapping) (e : EntryModel)
    (id : Nat) (hid : e.interactionId = some id) (hnew : lookupKey m id = none)
    (hroute : env.routeName = none ∨ env.routeContext = none) :
    observe env m e = m := by
  obtain ⟨oid, d, t, ty⟩ := e
  have h' : oid = some id := hid
  subst h'
  simp only [observe, hnew]
  split
  · rfl
  · split
    · rfl
    · split
      · rcases h1 : env.routeName with _ | rn <;> rcases h2 : env.routeContext with _ | c <;>
          simp [h1, h2] <;> rcases hroute with h3 | h3 <;> simp_all
      · rfl

/-- A concrete sample record. -/
def recSample (d t : Int) : InteractionRecord :=
  { routeName := "/home"
    duration := d
    parentContext := "ctx"
    user := none
    activeTransaction := none
    replayId := none
    startTime := t }

theorem C6_missing_route_atomic_drop_witness :
    observe envNoRoute [(7, recSample 3 0)] (eventEntry 99 100 1) = [(7, recSample 3 0)] :=
  C6_missing_route_atomic_drop envNoRoute _ (eventEntry 99 100 1) 99 rfl rfl (Or.inl rfl)

end BrowserTracing

namespace BrowserTracing

/-- Counterexample to claim C3 as stated: the `first-input` duplicate test
(source lines 595-604) runs before the duration merge (source lines
610-611).  With records for ids 7 (duration 80, startTime 5) and 42
(duration 50, startTime 0) in the cache, a `first-input` entry for id 42
with duration 80 and startTime 5 matches the (duration, startTime) pair of
the record for id 7 and is dropped, so the record for id 42 keeps duration
50 instead of max(50, 80) = 80. -/
theorem C3_counterexample_firstInput_blocks_merge :
    observe envSample [(7, recSample 80 5), (42, recSample 50 0)]
        (firstInputEntry 42 80 5) =
      [(7, recSample 80 5), (42, recSample 50 0)] ∧
    (lookupKey (observe envSample [(7, recSample 80 5), (42, recSample 50 0)]
        (firstInputEntry 42 80 5)) 42).map InteractionRecord.duration = some 50 ∧
    ¬ (50 : Int) = max 50 80 := by
  refine ⟨rfl, rfl, by decide⟩

/-- Claim C3, amended: when observe receives an entry whose interactionId
already has a stored record AND the entry is not dropped by the
`first-input` (duration, startTime) de-duplication test, the record's
duration becomes max(existing duration, entry duration) and every other
field of the record is unchanged, and every other record is untouched; in
particular observing id 42 with `event` durations 50, then 30, then 80
yields exactly one record with duration 80. -/
theorem C3_duration_merge (env : ObserveEnv) (m : Mapping) (e : EntryModel)
    (id : Nat) (r : InteractionRecord) (hid : e.interactionId = some id) (h0 : id ≠ 0)
    (hex : lookupKey m id = some r)
    (hdedup : e.entryType = EntryType.firstInput →
      hasDurationStartTimeMatch m e.duration e.startTime = false) :
    observe env m e = updateDuration id e.duration m ∧
    lookupKey (observe env m e) id = some { r with duration := max r.duration e.duration } ∧
    (∀ k, k ≠ id → lookupKey (observe env m e) k = lookupKey m k) ∧
    (runObserve [(envSample, eventEntry 42 50 0), (envSample, eventEntry 42 30 1),
        (envSample, eventEntry 42 80 2)]).map
      (fun p => (p.1, p.2.duration)) = [(42, 80)] := by
  obtain ⟨oid, d, t, ty⟩ := e
  have h' : oid = some id := hid
  subst h'
  have hdedup' : ty = EntryType.firstInput →
      hasDurationStartTimeMatch m d t = false := hdedup
  have hc1 : ¬(ty = EntryType.firstInput ∧ hasDurationStartTimeMatch m d t = true) := by
    rintro ⟨h1, h2⟩
    rw [hdedup' h1] at h2
    exact Bool.false_ne_true h2
  have hobs : observe env m ⟨some id, d, t, ty⟩ = updateDuration id d m := by
    simp only [observe, hex]
    rw [if_neg hc1, if_neg h0]
  refine ⟨hobs, ?_, ?_, ?_⟩
  · rw [hobs, lookupKey_updateDuration_self, hex]
    rfl
  · intro k hk
    rw [hobs, lookupKey_updateDuration_ne id k d m hk]
  · rfl

theorem C3_duration_merge_witness :
    observe envSample [(42, recSample 50 0)] (eventEntry 42 30 1) =
      updateDuration 42 30 [(42, recSample 50 0)] ∧
    lookupKey (observe envSample [(42, recSample 50 0)] (eventEntry 42 30 1)) 42 =
      some { recSample 50 0 with duration := max 50 30 } ∧
    (∀ k, k ≠ 42 → lookupKey (observe envSample [(42, recSample 50 0)] (eventEntry 42 30 1)) k =
      lookupKey [(42, recSample 50 0)] k) ∧
    (runObserve [(envSample, eventEntry 42 50 0), (envSample, eventEntry 42 30 1),
        (envSample, eventEntry 42 80 2)]).map
      (fun p => (p.1, p.2.duration)) = [(42, 80)] :=
  C3_duration_merge envSample [(42, recSample 50 0)] (eventEntry 42 30 1) 42
    (recSample 50 0) rfl (by decide) rfl (fun h => absurd h (by decide))

end BrowserTracing

namespace BrowserTracing

/-- Counterexample to claim C4 as stated: the de-duplication only fires for
the entry whose type is `first-input`, so the outcome depends on processing
order and interaction ids.  With the route established, a `first-input`
entry (id 1, duration 5, startTime 3) processed first is stored, and an
`event` entry (id 2, duration 5, startTime 3) sharing the identical
(duration, startTime) pair is then stored as well: two records result, not
one. -/
theorem C4_counterexample_order_dependent :
    (runObserve [(envSample, firstInputEntry 1 5 3),
        (envSample, eventEntry 2 5 3)]).length = 2 := by
  rfl

theorem observe_insert_empty (env : ObserveEnv) (e : EntryModel) (id : Nat) (rn c : String)
    (hid : e.interactionId = some id) (h0 : id ≠ 0) (hty : e.entryType = EntryType.event)
    (henv : env.routeName = some rn) (hrn : rn ≠ "") (hctx : env.routeContext = some c) :
    observe env [] e = [(id, mkRecord env rn c e)] := by
  obtain ⟨oid, d, t, ty⟩ := e
  have h' : oid = some id := hid
  subst h'
  have hty' : ty = EntryType.event := hty
  subst hty'
  simp [observe, henv, hctx, hrn, h0, admitNew, keysOf, minKey, MAX_INTERACTIONS,
    shouldEvict, lookupKey, insertSorted, hasDurationStartTimeMatch]

/-- Claim C4, amended: (i) a `first-input` entry whose (duration, startTime)
pair equals that of some record already in the cache is a complete no-op
(source lines 595-604); (ii) consequently, when the `event` entry is
processed before the `first-input` entry, two entries of those two kinds
sharing identical (duration, startTime) produce exactly one stored record.
(As stated, without the ordering condition, the claim fails: see the
counterexample, where the `first-input` entry is processed first under a
different interaction id and two records result.) -/
theorem C4_firstInput_dedup (env : ObserveEnv) (m : Mapping) (e : EntryModel) (id : Nat)
    (e1 e2 : EntryModel) (id1 : Nat) (rn c : String)
    (hid : e.interactionId = some id) (hty : e.entryType = EntryType.firstInput)
    (hmatch : hasDurationStartTimeMatch m e.duration e.startTime = true)
    (hid1 : e1.interactionId = some id1) (h01 : id1 ≠ 0) (hty1 : e1.entryType = EntryType.event)
    (henv : env.routeName = some rn) (hrn : rn ≠ "") (hctx : env.routeContext = some c)
    (hty2 : e2.entryType = EntryType.firstInput) (hd : e2.duration = e1.duration)
    (ht : e2.startTime = e1.startTime) :
    observe env m e = m ∧ (observe env (observe env [] e1) e2).length = 1 := by
  constructor
  · obtain ⟨oid, d, t, ty⟩ := e
    have h' : oid = some id := hid
    subst h'
    have hty' : ty = EntryType.firstInput := hty
    have hmatch' : hasDurationStartTimeMatch m d t = true := hmatch
    simp only [observe]
    rw [if_pos ⟨hty', hmatch'⟩]
  · rw [observe_insert_empty env e1 id1 rn c hid1 h01 hty1 henv hrn hctx]
    obtain ⟨oid2, d2, t2, ty2⟩ := e2
    have hty2' : ty2 = EntryType.firstInput := hty2
    subst hty2'
    have hd' : d2 = e1.duration := hd
    have ht' : t2 = e1.startTime := ht
    subst hd'
    subst ht'
    rcases oid2 with _ | id2
    · rfl
    · have hmatch2 : hasDurationStartTimeMatch [(id1, mkRecord env rn c e1)]
          e1.duration e1.startTime = true := by
        simp [hasDurationStartTimeMatch, mkRecord]
      simp [observe, hmatch2]

theorem C4_firstInput_dedup_witness :
    observe envSample [(2, recSample 5 3)] (firstInputEntry 9 5 3) = [(2, recSample 5 3)] ∧
    (observe envSample (observe envSample [] (eventEntry 2 5 3))
      (firstInputEntry 9 5 3)).length = 1 :=
  C4_firstInput_dedup envSample [(2, recSample 5 3)] (firstInputEntry 9 5 3) 9
    (eventEntry 2 5 3) (firstInputEntry 9 5 3) 2 "/home" "ctx"
    rfl rfl (by decide) rfl (by decide) rfl rfl (by decide) rfl rfl rfl rfl

end BrowserTracing

namespace BrowserTracing

/-- A cache at capacity: ids 1..10, durations 1..10, startTimes 0..9. -/
def fullCache : Mapping :=
  [(1, recSample 1 0), (2, recSample 2 1), (3, recSample 3 2), (4, recSample 4 3),
   (5, recSample 5 4), (6, recSample 6 5), (7, recSample 7 6), (8, recSample 8 7),
   (9, recSample 9 8), (10, recSample 10 9)]

/-- Fifteen distinct `event` interactions with strictly increasing durations
1..15, all with the route established. -/
def scenario15 : List (ObserveEnv × EntryModel) :=
  (List.range 15).map fun i => (envSample, eventEntry (i + 1) ((i : Int) + 1) 0)

/-- Counterexample to claim C2 as stated: the `first-input` de-duplication
test (source lines 595-604) runs before the capacity logic.  `fullCache` is
at capacity with minimum duration 1; a new `first-input` entry (id 99,
duration 10, startTime 9) has duration strictly greater than that minimum,
but its (duration, startTime) pair matches the record for id 10, so it is
dropped: nothing is evicted and nothing is inserted. -/
theorem C2_counterexample_firstInput_blocks_eviction :
    fullCache.length = MAX_INTERACTIONS ∧
    lookupKey fullCache 99 = none ∧
    minKey fullCache = some 1 ∧
    durOf fullCache 1 = 1 ∧
    (10 : Int) > 1 ∧
    observe envSample fullCache (firstInputEntry 99 10 9) = fullCache := by
  refine ⟨rfl, rfl, rfl, rfl, by decide, rfl⟩

/-- Claim C2, amended: when the cache is at capacity and a new (not
previously stored, route-attributable, non-sentinel) interaction entry
arrives that is moreover not dropped by the `first-input`
(duration, startTime) de-duplication, a minimum-duration record (the one
selected by the key reduce) is evicted and the entry inserted if and only
if the entry's duration is strictly greater than that minimum duration;
otherwise the entry is dropped.  Inserting 15 distinct interactions with
strictly increasing durations 1..15 leaves exactly the 10 records with
durations 6..15. -/
theorem C2_capacity_eviction (env : ObserveEnv) (m : Mapping) (e : EntryModel)
    (id j : Nat) (rn c : String)
    (hcap : m.length = MAX_INTERACTIONS)
    (hid : e.interactionId = some id) (h0 : id ≠ 0)
    (hnew : lookupKey m id = none)
    (hdedup : e.entryType = EntryType.firstInput →
      hasDurationStartTimeMatch m e.duration e.startTime = false)
    (henv : env.routeName = some rn) (hrn : rn ≠ "") (hctx : env.routeContext = some c)
    (hmin : minKey m = some j) :
    (j ∈ keysOf m ∧ ∀ b ∈ keysOf m, durOf m j ≤ durOf m b) ∧
    (e.duration > durOf m j →
      observe env m e = insertSorted id (mkRecord env rn c e) (eraseKey j m)) ∧
    (¬ e.duration > durOf m j → observe env m e = m) ∧
    (runObserve scenario15).map (fun p => (p.1, p.2.duration)) =
      [(6, 6), (7, 7), (8, 8), (9, 9), (10, 10), (11, 11), (12, 12), (13, 13),
       (14, 14), (15, 15)] := by
  obtain ⟨oid, d, t, ty⟩ := e
  have h' : oid = some id := hid
  subst h'
  have hdedup' : ty = EntryType.firstInput →
      hasDurationStartTimeMatch m d t = false := hdedup
  have hc1 : ¬(ty = EntryType.firstInput ∧ hasDurationStartTimeMatch m d t = true) := by
    rintro ⟨h1, h2⟩
    rw [hdedup' h1] at h2
    exact Bool.false_ne_true h2
  refine ⟨⟨minKey_mem hmin, minKey_min hmin⟩, ?_, ?_, ?_⟩
  · intro hgt
    have hgt' : d > durOf m j := hgt
    have hadm : admitNew m d = true := by
      unfold admitNew
      rw [hmin]
      simp [hgt']
    have hev : shouldEvict m = true := by
      unfold shouldEvict
      rw [hmin, length_keysOf, hcap]
      simp
    simp only [observe, hnew]
    rw [if_neg hc1, if_neg h0, if_pos hadm]
    simp only [henv, hctx]
    rw [if_neg hrn]
    rw [if_pos hev]
    simp only [hmin]
  · intro hng
    have hng' : ¬ d > durOf m j := hng
    have hadm : admitNew m d = false := by
      unfold admitNew
      rw [hmin]
      simp [length_keysOf, hcap, MAX_INTERACTIONS, hng']
    simp only [observe, hnew]
    rw [if_neg hc1, if_neg h0, if_neg (by simp [hadm])]
  · rfl

theorem C2_capacity_eviction_witness :
    ((1 ∈ keysOf fullCache ∧ ∀ b ∈ keysOf fullCache, durOf fullCache 1 ≤ durOf fullCache b) ∧
    ((eventEntry 99 11 50).duration > durOf fullCache 1 →
      observe envSample fullCache (eventEntry 99 11 50) =
        insertSorted 99 (mkRecord envSample "/home" "ctx" (eventEntry 99 11 50))
          (eraseKey 1 fullCache)) ∧
    (¬ (eventEntry 99 11 50).duration > durOf fullCache 1 →
      observe envSample fullCache (eventEntry 99 11 50) = fullCache) ∧
    (runObserve scenario15).map (fun p => (p.1, p.2.duration)) =
      [(6, 6), (7, 7), (8, 8), (9, 9), (10, 10), (11, 11), (12, 12), (13, 13),
       (14, 14), (15, 15)]) :=
  C2_capacity_eviction envSample fullCache (eventEntry 99 11 50) 99 1 "/home" "ctx"
    rfl rfl (by decide) rfl (fun h => absurd h (by decide)) rfl (by decide) rfl rfl

end BrowserTracing

namespace BrowserTracing

/-- `finishReason` values of the spec's ActivitySpan. -/
inductive FinishReason where
  | idleTimeout
  | finalTimeout
  | heartbeatFailed
  | external
  | interactionInterrupted
  | cancelled
deriving DecidableEq, Repr

/-- Operation of a route span started by the `startPageLoadSpan` /
`startNavigationSpan` handlers in `afterAllSetup` (source lines 346-368). -/
inductive SpanOp where
  | pageload
  | navigation
deriving DecidableEq, Repr

/-- A route span as the supersession logic sees it: its op and whether (and
why) it has been finished. -/
structure RouteSpan where
  op : SpanOp
  finishReason : Option FinishReason
deriving DecidableEq, Repr

/-- The state of `afterAllSetup`'s closure: all spans ever created by
`_createRouteTransaction` (indexed by creation order) and the `activeSpan`
variable (source line 342) as an index into that list. -/
structure RouteTrackerState where
  spans : List RouteSpan
  activeSpan : Option Nat
deriving DecidableEq, Repr

/-- Modelled from the spec: `activeSpan.end()` (source lines 350 / 362)
finishes the span, and the finish reason recorded for an idle transaction
ended externally in this way is `external` — the IdleTransaction finishing
logic lives in `@sentry/core`, outside this repository's sources; the spec
states "if a span is currently active, it is first finished with reason
`external`". -/
def endSpanExternal (s : RouteSpan) : RouteSpan :=
  { s with finishReason := some FinishReason.external }

/-- End the span at index `i`. -/
def endSpanAt : List RouteSpan → Nat → List RouteSpan
  | [], _ => []
  | s :: rest, 0 => endSpanExternal s :: rest
  | s :: rest, i + 1 => s :: endSpanAt rest i

/-- The `if (activeSpan) { activeSpan.end(); }` step of the two handlers
(source lines 347-351 and 359-363): the active span, if any, is finished;
afterwards no span is current until the new one is created. -/
def finishActive (st : RouteTrackerState) : RouteTrackerState :=
  match st.activeSpan with
  | some i => { spans := endSpanAt st.spans i, activeSpan := none }
  | none => st

/-- `activeSpan = _createRouteTransaction({ op, ...context })` (source lines
352-355 and 364-367): a fresh unfinished span is created and becomes the
active one. -/
def startNewSpan (st : RouteTrackerState) (op : SpanOp) : RouteTrackerState :=
  { spans := st.spans ++ [{ op := op, finishReason := none }]
    activeSpan := some st.spans.length }

/-- A `startNavigationSpan` or `startPageLoadSpan` event (source lines
346-368): finish the currently active span first, then create the new one. -/
def handleStartSpan (st : RouteTrackerState) (op : SpanOp) : RouteTrackerState :=
  startNewSpan (finishActive st) op

/-- At most one span is current: every unfinished span is the one
`activeSpan` points to. -/
def atMostOneCurrent (st : RouteTrackerState) : Prop :=
  ∀ i s, st.spans.get? i = some s → s.finishReason = none → st.activeSpan = some i

theorem endSpanAt_length (l : List RouteSpan) (i : Nat) :
    (endSpanAt l i).length = l.length := by
  induction l generalizing i with
  | nil => rfl
  | cons s rest ih =>
    rcases i with _ | i
    · rfl
    · simp [endSpanAt, ih]

theorem endSpanAt_get_self (l : List RouteSpan) (i : Nat) :
    (endSpanAt l i).get? i = (l.get? i).map endSpanExternal := by
  induction l generalizing i with
  | nil => rfl
  | cons s rest ih =>
    rcases i with _ | i
    · rfl
    · simpa [endSpanAt] using ih i

theorem endSpanAt_get_ne (l : List RouteSpan) (i j : Nat) (h : j ≠ i) :
    (endSpanAt l i).get? j = l.get? j := by
  induction l generalizing i j with
  | nil => rfl
  | cons s rest ih =>
    rcases i with _ | i
    · rcases j with _ | j
      · exact absurd rfl h
      · rfl
    · rcases j with _ | j
      · rfl
      · simpa [endSpanAt] using ih i j (by omega)

end BrowserTracing

namespace BrowserTracing

/-- Claim C7: a `startPageLoadSpan` or `startNavigationSpan` event arriving
while a span is active first finishes that span with finish reason
`external`, before the new span is created (the handler is definitionally
the composition of the finish step and the creation step; in the
intermediate state after the finish step the prior span already carries
reason `external`, no span is current, and the new span does not exist
yet), and at no point are two spans simultaneously current: the
at-most-one-current invariant also holds after the event. -/
theorem C7_supersession (st : RouteTrackerState) (op : SpanOp) (i : Nat) (s : RouteSpan)
    (hact : st.activeSpan = some i) (hs : st.spans.get? i = some s)
    (hone : atMostOneCurrent st) :
    handleStartSpan st op = startNewSpan (finishActive st) op ∧
    (finishActive st).activeSpan = none ∧
    (finishActive st).spans.length = st.spans.length ∧
    (finishActive st).spans.get? i = some { s with finishReason := some FinishReason.external } ∧
    (handleStartSpan st op).spans.get? i =
      some { s with finishReason := some FinishReason.external } ∧
    (handleStartSpan st op).activeSpan = some st.spans.length ∧
    i ≠ st.spans.length ∧
    atMostOneCurrent (handleStartSpan st op) := by
  have hi : i < st.spans.length := by
    by_contra hge
    rw [List.get?_eq_none.mpr (by omega)] at hs
    cases hs
  have hfin_spans : (finishActive st).spans = endSpanAt st.spans i := by
    simp [finishActive, hact]
  have hfin_act : (finishActive st).activeSpan = none := by
    simp [finishActive, hact]
  have hlen : (finishActive st).spans.length = st.spans.length := by
    rw [hfin_spans, endSpanAt_length]
  have hget_fin : (finishActive st).spans.get? i =
      some { s with finishReason := some FinishReason.external } := by
    rw [hfin_spans, endSpanAt_get_self, hs]
    rfl
  have hget_new : (handleStartSpan st op).spans.get? i =
      some { s with finishReason := some FinishReason.external } := by
    show (startNewSpan (finishActive st) op).spans.get? i = _
    simp only [startNewSpan]
    rw [List.get?_append (by omega), hget_fin]
  have hact_new : (handleStartSpan st op).activeSpan = some st.spans.length := by
    show (startNewSpan (finishActive st) op).activeSpan = _
    simp only [startNewSpan]
    rw [hlen]
  refine ⟨rfl, hfin_act, hlen, hget_fin, hget_new, hact_new, by omega, ?_⟩
  intro j s' hget hnone
  rw [hact_new]
  have hget' : (startNewSpan (finishActive st) op).spans.get? j = some s' := hget
  simp only [startNewSpan] at hget'
  rcases lt_trichotomy j (finishActive st).spans.length with hj | hj | hj
  · rw [List.get?_append hj, hfin_spans] at hget'
    by_cases hji : j = i
    · subst hji
      rw [endSpanAt_get_self, hs] at hget'
      cases hget'
      cases hnone
    · rw [endSpanAt_get_ne st.spans i j hji] at hget'
      have heq := hone j s' hget' hnone
      rw [hact] at heq
      cases heq
      exact absurd rfl hji
  · subst hj
    rw [hlen]
  · rw [List.get?_eq_none.mpr (by simp; omega)] at hget'
    cases hget'

theorem C7_supersession_witness :
    handleStartSpan ⟨[⟨SpanOp.pageload, none⟩], some 0⟩ SpanOp.navigation =
      startNewSpan (finishActive ⟨[⟨SpanOp.pageload, none⟩], some 0⟩) SpanOp.navigation ∧
    (finishActive ⟨[⟨SpanOp.pageload, none⟩], some 0⟩).activeSpan = none ∧
    (finishActive ⟨[⟨SpanOp.pageload, none⟩], some 0⟩).spans.length =
      ([⟨SpanOp.pageload, none⟩] : List RouteSpan).length ∧
    (finishActive ⟨[⟨SpanOp.pageload, none⟩], some 0⟩).spans.get? 0 =
      some ⟨SpanOp.pageload, some FinishReason.external⟩ ∧
    (handleStartSpan ⟨[⟨SpanOp.pageload, none⟩], some 0⟩ SpanOp.navigation).spans.get? 0 =
      some ⟨SpanOp.pageload, some FinishReason.external⟩ ∧
    (handleStartSpan ⟨[⟨SpanOp.pageload, none⟩], some 0⟩ SpanOp.navigation).activeSpan =
      some ([⟨SpanOp.pageload, none⟩] : List RouteSpan).length ∧
    (0 : Nat) ≠ ([⟨SpanOp.pageload, none⟩] : List RouteSpan).length ∧
    atMostOneCurrent (handleStartSpan ⟨[⟨SpanOp.pageload, none⟩], some 0⟩ SpanOp.navigation) :=
  C7_supersession ⟨[⟨SpanOp.pageload, none⟩], some 0⟩ SpanOp.navigation 0
    ⟨SpanOp.pageload, none⟩ rfl rfl
    (by
      intro j s hget hnone
      rcases j with _ | j
      · cases hget
        rfl
      · cases hget)

end BrowserTracing

namespace BrowserTracing

/-- The caller-supplied options relevant to timeouts: each field of the
options object passed to `browserTracingIntegration` may be absent. -/
structure TracingPartialTimeouts where
  idleTimeout : Option Int
  finalTimeout : Option Int
  heartbeatInterval : Option Int
deriving DecidableEq, Repr

/-- The timeout fields of the resolved options object. -/
structure TracingTimeouts where
  idleTimeout : Int
  finalTimeout : Int
  heartbeatInterval : Int
deriving DecidableEq, Repr

/-- The options merge of `browserTracingIntegration` (source lines 199-202):
`{ ...DEFAULT_BROWSER_TRACING_OPTIONS, ..._options }`, restricted to the
three timeout fields.  The defaults come from `TRACING_DEFAULTS` of
`@sentry/core`: idleTimeout 1000, finalTimeout 30000, heartbeatInterval
5000, as documented on the option fields (source lines 58, 67, 76) and in
the spec.  The merge performs no validation of any kind and never fails. -/
def resolveTracingOptions (o : TracingPartialTimeouts) : TracingTimeouts :=
  { idleTimeout := o.idleTimeout.getD 1000
    finalTimeout := o.finalTimeout.getD 30000
    heartbeatInterval := o.heartbeatInterval.getD 5000 }

/-- Modelled from the spec: "Configuration (all caller-supplied, validated
to be positive numbers)" and "the only programmer error is configuring a
non-positive timeout, which fails fast at construction" — a validating
construction that rejects non-positive timeouts.  No such validation exists
anywhere in the source file; this definition exists only to be compared
with `resolveTracingOptions`. -/
def resolveTracingOptionsValidated (o : TracingPartialTimeouts) : Option TracingTimeouts :=
  let r := resolveTracingOptions o
  if 0 < r.idleTimeout ∧ 0 < r.finalTimeout ∧ 0 < r.heartbeatInterval then some r else none

/-- Counterexample to claim C8 as stated: constructing the integration with
`idleTimeout := -5` does not fail — `browserTracingIntegration` merges the
options (source lines 199-202) with no validation, yielding a working
options object carrying the non-positive value, whereas the spec's
validating construction rejects it. -/
theorem C8_counterexample_no_fail_fast :
    resolveTracingOptions ⟨some (-5), none, none⟩ =
      ⟨-5, 30000, 5000⟩ ∧
    resolveTracingOptionsValidated ⟨some (-5), none, none⟩ = none := by
  refine ⟨rfl, by decide⟩

/-- Claim C8, amended: construction performs no validation at all — a
non-positive value supplied for idleTimeout, finalTimeout or
heartbeatInterval is accepted and stored unchanged in the resolved options;
construction never fails. -/
theorem C8_no_validation (v : Int) (hv : v ≤ 0) :
    resolveTracingOptions ⟨some v, some v, some v⟩ = ⟨v, v, v⟩ := by
  rfl

theorem C8_no_validation_witness :
    (-5 : Int) ≤ 0 ∧
    resolveTracingOptions ⟨some (-5), some (-5), some (-5)⟩ = ⟨-5, -5, -5⟩ :=
  ⟨by decide, C8_no_validation (-5) (by decide)⟩

/-- Modelled from the spec: the heartbeat algorithm of the idle transaction
(the implementation lives in `@sentry/core`, outside this repository's
sources; `_createRouteTransaction` merely passes `heartbeatInterval` to
`startIdleTransaction`, source lines 282-291).  Per the spec: "on each
heartbeat tick, compare the current duration-to-date against the duration
recorded at the previous tick.  If unchanged across three consecutive
ticks, finish with `heartbeatFailed`; any detected change resets the miss
counter to zero."  A finished span ignores further ticks. -/
structure HeartbeatState where
  prevDuration : Int
  missCount : Nat
  finished : Option FinishReason
deriving DecidableEq, Repr

/-- Modelled from the spec: one heartbeat tick (see `HeartbeatState`). -/
def heartbeatTick (st : HeartbeatState) (currentDuration : Int) : HeartbeatState :=
  if st.finished.isSome then st
  else
    let miss := if currentDuration = st.prevDuration then st.missCount + 1 else 0
    if miss ≥ 3 then
      { prevDuration := currentDuration, missCount := miss,
        finished := some FinishReason.heartbeatFailed }
    else
      { prevDuration := currentDuration, missCount := miss, finished := none }

/-- Claim C9: for an active span with miss counter 0, if the duration-to-date
is unchanged across three consecutive heartbeat ticks the span is finished
with `heartbeatFailed`; and any tick at which the duration has changed
resets the miss counter, so a change on tick 2 prevents a finish at tick 3
(whatever the durations on ticks 1 and 3). -/
theorem C9_heartbeat (st : HeartbeatState)
    (h1 : st.finished = none) (h2 : st.missCount = 0) :
    (heartbeatTick (heartbeatTick (heartbeatTick st st.prevDuration) st.prevDuration)
        st.prevDuration).finished = some FinishReason.heartbeatFailed ∧
    ∀ d1 d2 d3 : Int, d2 ≠ d1 →
      (heartbeatTick (heartbeatTick (heartbeatTick st d1) d2) d3).finished = none := by
  obtain ⟨p, mc, fin⟩ := st
  have hf : fin = none := h1
  subst hf
  have hm : mc = 0 := h2
  subst hm
  constructor
  · simp [heartbeatTick]
  · intro d1 d2 d3 hne
    by_cases hd1 : d1 = p
    · subst hd1
      by_cases hd3 : d3 = d2 <;> simp [heartbeatTick, hne, hd3]
    · by_cases hd3 : d3 = d2 <;> simp [heartbeatTick, hd1, hne, hd3]

theorem C9_heartbeat_witness :
    (heartbeatTick (heartbeatTick (heartbeatTick ⟨5, 0, none⟩ 5) 5) 5).finished =
      some FinishReason.heartbeatFailed ∧
    ∀ d1 d2 d3 : Int, d2 ≠ d1 →
      (heartbeatTick (heartbeatTick (heartbeatTick ⟨5, 0, none⟩ d1) d2) d3).finished = none :=
  C9_heartbeat ⟨5, 0, none⟩ rfl rfl

end BrowserTracing

namespace BrowserTracing

/-- A transaction as the click listener sees it: its op, whether it was
ended, and the finish reason set on it, if any. -/
structure ClickTxn where
  op : Option String
  finishReason : Option FinishReason
  ended : Bool
deriving DecidableEq, Repr

/-- State owned by `registerInteractionListener` (source lines 484-545):
the transactions in existence, the `inflightInteractionTransaction`
variable, and a fresh-id counter for newly created transactions. -/
structure ClickState where
  txns : List (Nat × ClickTxn)
  inflight : Option Nat
  nextId : Nat
deriving DecidableEq, Repr

/-- The ambient reads of the click callback: `getActiveTransaction()` as an
index into the transaction list, and `latestRoute.name`. -/
structure ClickEnv where
  activeTransactionId : Option Nat
  latestRouteName : Option String
deriving DecidableEq, Repr

/-- Transaction lookup by id. -/
def lookupTxn (l : List (Nat × ClickTxn)) (i : Nat) : Option ClickTxn :=
  match l with
  | [] => none
  | p :: rest => if p.1 = i then some p.2 else lookupTxn rest i

/-- `inflightInteractionTransaction.setFinishReason('interactionInterrupted');
inflightInteractionTransaction.end()` (source lines 507-508). -/
def endInflight (l : List (Nat × ClickTxn)) (i : Nat) : List (Nat × ClickTxn) :=
  l.map fun p =>
    if p.1 = i then
      (p.1, { p.2 with finishReason := some FinishReason.interactionInterrupted, ended := true })
    else p

/-- `currentTransaction && currentTransaction.op &&
['navigation', 'pageload'].includes(currentTransaction.op)` (source line
498), for a present transaction: the op must be truthy (nonempty) and one
of the two values. -/
def isNavOrPageloadOp (t : ClickTxn) : Bool :=
  match t.op with
  | some o => decide (¬ o = "") && (o == "navigation" || o == "pageload")
  | none => false

/-- The `registerInteractionTransaction` click callback (source lines
492-538): return immediately when the active transaction is a pageload or
navigation transaction; otherwise interrupt any inflight interaction
transaction, drop the click when no latest route name is available
(a string is truthy iff nonempty), and otherwise start a new
`ui.action.click` idle transaction which becomes the inflight one. -/
def handleClick (env : ClickEnv) (st : ClickState) : ClickState :=
  let currentTransaction :=
    match env.activeTransactionId with
    | some i => lookupTxn st.txns i
    | none => none
  if (match currentTransaction with
      | some t => isNavOrPageloadOp t
      | none => false) = true then st
  else
    let st1 :=
      match st.inflight with
      | some i => { st with txns := endInflight st.txns i, inflight := none }
      | none => st
    match env.latestRouteName with
    | some rn =>
      if rn = "" then st1
      else
        { txns := st1.txns ++ [(st1.nextId,
            { op := some ("ui.action.click"), finishReason := none, ended := false })]
          inflight := some st1.nextId
          nextId := st1.nextId + 1 }
    | none => st1

/-- Claim C10: a click processed while the active transaction has op
`navigation` or `pageload` is a complete no-op: the callback returns before
doing anything (source lines 497-504), so no interaction transaction is
created, the inflight interaction transaction is untouched, and the active
pageload/navigation transaction is neither ended nor modified. -/
theorem C10_click_skipped_during_route_transaction (env : ClickEnv) (st : ClickState)
    (i : Nat) (t : ClickTxn)
    (hact : env.activeTransactionId = some i) (ht : lookupTxn st.txns i = some t)
    (hop : t.op = some ("navigation") ∨ t.op = some ("pageload")) :
    handleClick env st = st ∧
    lookupTxn (handleClick env st).txns i = some t ∧
    (handleClick env st).inflight = st.inflight ∧
    (handleClick env st).txns.length = st.txns.length := by
  have hnav : isNavOrPageloadOp t = true := by
    rcases hop with h | h <;> simp [isNavOrPageloadOp, h]
  have hmain : handleClick env st = st := by
    simp [handleClick, hact, ht, hnav]
  exact ⟨hmain, by rw [hmain, ht], by rw [hmain], by rw [hmain]⟩

theorem C10_click_skipped_during_route_transaction_witness :
    handleClick ⟨some 3, some ("/home")⟩
        ⟨[(3, ⟨some ("navigation"), none, false⟩)], none, 4⟩ =
      ⟨[(3, ⟨some ("navigation"), none, false⟩)], none, 4⟩ ∧
    lookupTxn (handleClick ⟨some 3, some ("/home")⟩
        ⟨[(3, ⟨some ("navigation"), none, false⟩)], none, 4⟩).txns 3 =
      some ⟨some ("navigation"), none, false⟩ ∧
    (handleClick ⟨some 3, some ("/home")⟩
        ⟨[(3, ⟨some ("navigation"), none, false⟩)], none, 4⟩).inflight = none ∧
    (handleClick ⟨some 3, some ("/home")⟩
        ⟨[(3, ⟨some ("navigation"), none, false⟩)], none, 4⟩).txns.length =
      ([(3, (⟨some ("navigation"), none, false⟩ : ClickTxn))] : List (Nat × ClickTxn)).length :=
  C10_click_skipped_during_route_transaction ⟨some 3, some ("/home")⟩
    ⟨[(3, ⟨some ("navigation"), none, false⟩)], none, 4⟩ 3
    ⟨some ("navigation"), none, false⟩ rfl rfl (Or.inl rfl)

end BrowserTracing
